import Mathlib

/-!
Shallow embedding of the Image-Compressor-Service (src/main.py): the CSV
validator, the upload handler, the background processing pipeline, the
status lookup and the image re-encoding dispatch, together with theorems
settling the specification claims about them.

Conventions of the embedding:
* Python machine-level effects (DynamoDB, S3, HTTP fetch, PIL decoding) are
  modelled by explicit oracles carried in environment records; each oracle
  returns `Except String _` where the error is the Python exception's
  rendered message `str(e)`.
* The job store and blob store are association lists from keys to values
  inside a `World` record; a stored CSV document is a list of rows, each row
  a list of cells (`Cell.str` for a plain string field, `Cell.strList` for a
  Python list written into one field, as `csv.writer` renders lists).
* Python strings are Lean `String`s; regexes from the source are compiled by
  hand into executable character-list matchers.  `str.isdigit` is modelled
  on decimal ASCII digits and `\s` on the six ASCII whitespace characters,
  which covers every string the claims exercise.
-/

/-- ASCII whitespace recognised by Python's `\s` and `str.strip()`. -/
def isPySpace (c : Char) : Bool :=
  c = ' ' || c = '\t' || c = '\n' || c = '\r' || c = '\x0b' || c = '\x0c'

/-- Python `str.strip()`: drop whitespace from both ends. -/
def pyStrip (s : String) : String :=
  String.mk (((s.data.dropWhile isPySpace).reverse.dropWhile isPySpace).reverse)

/-- Python `repr` of a string as it appears inside `repr` of a list
(the source never puts quotes or escapes into these strings). -/
def pyReprStr (s : String) : String := "'" ++ s ++ "'"

/-- Python `repr`/`str` of a list of strings, as an f-string renders it. -/
def pyRepr (l : List String) : String :=
  "[" ++ String.intercalate ", " (l.map pyReprStr) ++ "]"

/-- Python `s.split(",")` (never drops the empty trailing field). -/
def splitCommaAux : List Char → List Char → List String
  | [], acc => [String.mk acc.reverse]
  | c :: rest, acc =>
    if c = ',' then String.mk acc.reverse :: splitCommaAux rest []
    else splitCommaAux rest (c :: acc)

/-- Python `s.split(",")`. -/
def splitComma (s : String) : List String := splitCommaAux s.data []

/-- Python `s.isdigit()` restricted to ASCII: non-empty and all decimal digits. -/
def pyIsDigit (s : String) : Bool := !s.isEmpty && s.data.all Char.isDigit

/-- One cell of a CSV row handed to `csv.writer`: either a plain string or a
Python list of strings (which the writer renders via `str`). -/
inductive Cell
  | str (s : String)
  | strList (l : List String)
deriving DecidableEq

/-- What `csv.writer` writes for a cell, hence what a re-read yields. -/
def cellToString : Cell → String
  | .str s => s
  | .strList l => pyRepr l

/-- Association-list lookup with string keys (models a key-value store read). -/
def assocLookup {α : Type} : List (String × α) → String → Option α
  | [], _ => none
  | (k', v) :: t, k => if k' = k then some v else assocLookup t k

/-- Association-list overwrite-or-append (models a key-value store write). -/
def assocInsert {α : Type} : List (String × α) → String → α → List (String × α)
  | [], k, v => [(k, v)]
  | (k', v') :: t, k, v =>
    if k' = k then (k, v) :: t else (k', v') :: assocInsert t k v

/-- The two external stores: DynamoDB job records and the S3 CSV bucket. -/
structure World where
  db : List (String × String)
  s3 : List (String × List (List Cell))
deriving DecidableEq

/-- A FastAPI `HTTPException`, by status code and detail. -/
structure HTTPErr where
  status_code : Nat
  detail : String
deriving DecidableEq

/-- Python `str(HTTPException(code, detail))` (starlette renders it as
`"{status_code}: {detail}"`). -/
def strHTTPErr (e : HTTPErr) : String :=
  toString e.status_code ++ ": " ++ e.detail

/-- The `Item` pydantic model: a job record. -/
structure Item where
  requestId : String
  status : String
deriving DecidableEq

/-! ## The URL regex of `is_valid_image_url`

Source regex (checked with `re.match`, `re.IGNORECASE`):
`^(http|https)://[^\s/$.?#].[^\s]*\.(jpg|jpeg|png|gif)$`
compiled by hand: a case-insensitive scheme-and-separator, one character
outside whitespace and `/$.?#`, one arbitrary non-newline character, a run
of non-whitespace, then a dot and one of the four extensions; Python's `$`
also matches just before one trailing newline. -/

/-- Case-insensitive removal of pattern `pat` from the front of `cs`,
returning the remainder on success. -/
def dropCI : List Char → List Char → Option (List Char)
  | [], cs => some cs
  | _ :: _, [] => none
  | p :: ps, c :: cs => if c.toLower = p.toLower then dropCI ps cs else none

/-- Case-insensitive character-list equality. -/
def listEqCI (a b : List Char) : Bool := a.map Char.toLower == b.map Char.toLower

/-- The four extension alternatives of the regex group. -/
def imageExts : List (List Char) :=
  [['j', 'p', 'g'], ['j', 'p', 'e', 'g'], ['p', 'n', 'g'], ['g', 'i', 'f']]

/-- Does `rest` match `[^\s]*\.(ext)$` for the given extension?  The dot and
extension sit at the very end, everything before them is non-whitespace. -/
def extMatch (rest ext : List Char) : Bool :=
  decide (ext.length + 1 ≤ rest.length) &&
  listEqCI (rest.drop (rest.length - (ext.length + 1))) ('.' :: ext) &&
  (rest.take (rest.length - (ext.length + 1))).all (fun c => !isPySpace c)

/-- Does `rest` match `[^\s]*\.(jpg|jpeg|png|gif)$`?  The second disjunct is
Python's `$` matching just before a single trailing newline. -/
def tailMatch (rest : List Char) : Bool :=
  imageExts.any (extMatch rest) ||
  (match rest.getLast? with
   | some c => c = '\n' && imageExts.any (extMatch rest.dropLast)
   | none => false)

/-- Does `rest` match `[^\s/$.?#].[^\s]*\.(jpg|jpeg|png|gif)$`? -/
def matchAfterScheme (rest : List Char) : Bool :=
  match rest with
  | c0 :: c1 :: rest2 =>
    !isPySpace c0 && !(c0 == '/' || c0 == '$' || c0 == '.' || c0 == '?' || c0 == '#') &&
    !(c1 == '\n') && tailMatch rest2
  | _ => false

/-- `is_valid_image_url` from the source: the whole regex, anchored. -/
def is_valid_image_url (url : String) : Bool :=
  (match dropCI ['h', 't', 't', 'p', ':', '/', '/'] url.data with
   | some r => matchAfterScheme r
   | none => false) ||
  (match dropCI ['h', 't', 't', 'p', 's', ':', '/', '/'] url.data with
   | some r => matchAfterScheme r
   | none => false)

/-- `is_alphanumeric_with_spaces` from the source: `re.match(r'^[a-zA-Z0-9 ]*$', s)`.
Python's `$` also matches just before one trailing newline. -/
def is_alphanumeric_with_spaces (s : String) : Bool :=
  s.data.all (fun c => c.isAlpha || c.isDigit || c = ' ') ||
  (match s.data.getLast? with
   | some c => c = '\n' && s.data.dropLast.all (fun c => c.isAlpha || c.isDigit || c = ' ')
   | none => false)

/-! ## The validator (`validate_csv`) -/

/-- An error raised inside `validate_csv`: either an `HTTPException` or a
plain Python exception (carrying `str(e)`), which `upload_csv` maps to 500. -/
inductive ValErr
  | http (code : Nat) (detail : String)
  | pyexc (msg : String)
deriving DecidableEq

/-- The per-row checks of `validate_csv`, in source order: the
column-count guard, the three-way unpacking, then `sno`, `product_name`
and the image-URL list.  `none` means the row passes. -/
def checkRow (row : List String) : Option ValErr :=
  if row.length < 3 then
    some (.http 400 ("Row has insufficient columns: " ++ pyRepr row))
  else if row.length ≠ 3 then
    some (.pyexc "too many values to unpack (expected 3)")
  else
    let sno := row.getD 0 ""
    let product_name := row.getD 1 ""
    let image_urls := row.getD 2 ""
    if pyIsDigit sno = false then
      some (.http 400 ("Invalid S.No. (not a number): " ++ sno))
    else if is_alphanumeric_with_spaces product_name = false then
      some (.http 400 ("Invalid product name (not alphanumeric): " ++ product_name ++
        " at S.No.: " ++ sno))
    else if (splitComma image_urls).all (fun u => is_valid_image_url (pyStrip u)) = false then
      some (.http 400 ("Invalid Image Urls in list: " ++ image_urls ++ " at S.No.: " ++ sno))
    else none

/-- The row loop of `validate_csv`: first failing row wins. -/
def firstErr : List (List String) → Except ValErr Unit
  | [] => .ok ()
  | r :: rs =>
    match checkRow r with
    | some e => .error e
    | none => firstErr rs

/-- `validate_csv` over the parsed rows: the row-count guard, the header
comparison against the configured list, then the per-row checks. -/
def validate_csv (validHeaders : List String) (rows : List (List String)) : Except ValErr Unit :=
  if rows.length ≤ 1 then .error (.http 400 "CSV file is empty")
  else
    match rows with
    | [] => .error (.http 400 "CSV file is empty")
    | hdr :: dataRows =>
      if hdr = validHeaders then firstErr dataRows
      else .error (.http 400 ("CSV file headers are invalid. Allowed headers are " ++
        pyRepr validHeaders))

/-! ## The upload handler (`upload_csv`) -/

/-- An uploaded file as the handler observes it: declared content type,
byte size (what `file.file._file.seek(0, 2)` returns), and the outcome of
decoding + CSV-parsing its bytes (`.error` carries the exception message). -/
structure UploadFile where
  content_type : String
  size : Nat
  content : Except String (List (List String))

/-- Effect oracles of the synchronous upload path: the generated
`uuid4().hex` identifier and the outcomes of the S3 and DynamoDB writes. -/
structure UploadEnv where
  freshId : String
  s3Put : Except String Unit
  dbPut : Except String Unit

/-- `upload_csv` from the source: content-type gate, size gate, validation,
S3 upload of the original under `<requestId>.csv`, `Pending` job record,
background scheduling.  Returns the world, the response
(`.ok requestId` or an `HTTPException`), and whether the background task
was scheduled. -/
def upload_csv (validHeaders : List String) (maxFileSize : Nat) (env : UploadEnv)
    (f : UploadFile) (w : World) : World × Except HTTPErr String × Bool :=
  if f.content_type ≠ "text/csv" then
    (w, .error ⟨400, "Only CSV files are allowed"⟩, false)
  else if maxFileSize < f.size then
    (w, .error ⟨400, "File size exceeds the 2 MB limit!"⟩, false)
  else
    match f.content with
    | .error e => (w, .error ⟨500, "CSV parsing failed with exception: " ++ e⟩, false)
    | .ok rows =>
      match validate_csv validHeaders rows with
      | .error (.http c d) => (w, .error ⟨c, d⟩, false)
      | .error (.pyexc m) =>
        (w, .error ⟨500, "CSV parsing failed with exception: " ++ m⟩, false)
      | .ok _ =>
        match env.s3Put with
        | .error e =>
          (w, .error ⟨500, "Error occurred while writing file to S3: " ++ e⟩, false)
        | .ok _ =>
          let stored := rows.map (fun r => r.map Cell.str)
          let w1 : World := { w with s3 := assocInsert w.s3 (env.freshId ++ ".csv") stored }
          match env.dbPut with
          | .error e =>
            (w1, .error ⟨500, "Error occurred while writing to DB: " ++ e⟩, false)
          | .ok _ =>
            ({ w1 with db := assocInsert w1.db env.freshId "Processing Pending" },
             .ok env.freshId, true)

/-! ## The background pipeline (`process_file`) -/

/-- Effect oracles of one background run: the job-store write outcome per
status string, an optional injected failure of the S3 read / UTF-8 decode,
the per-URL outcome of `compress_image` (fetch + decode + re-encode +
image upload), and the outcome of the result-CSV upload. -/
structure Env where
  dbWrite : String → Except String Unit
  readFail : Option String
  transform : String → Except String String
  s3Write : Except String Unit

/-- How one background run ended: `completed`, `failed` (the exception was
caught and the failure status written; `resultUploaded` records whether the
result CSV had already been stored), or `crashed` (writing the failure
status itself raised, so the exception escaped the background task). -/
inductive RunOutcome
  | completed
  | failed (reason : String) (resultUploaded : Bool)
  | crashed (reason : String) (escaped : String) (resultUploaded : Bool)
deriving DecidableEq

/-- Is the outcome an escaped exception? -/
def RunOutcome.isCrashed : RunOutcome → Bool
  | .crashed _ _ _ => true
  | _ => false

/-- The status string the `except` block persists for exception message `e`. -/
def failStatusOf (e : String) : String := "Processing failed due to " ++ e ++ "!"

/-- The `except Exception` block of `process_file`: write the failure
status; if that write itself raises, the exception escapes the task. -/
def fail_update (env : Env) (requestId : String) (e : String) (w : World)
    (uploaded : Bool) : World × RunOutcome :=
  match env.dbWrite (failStatusOf e) with
  | .ok _ =>
    ({ w with db := assocInsert w.db requestId (failStatusOf e) }, .failed e uploaded)
  | .error e2 =>
    (w, .crashed e ("500: Error occurred while writing to DB: " ++ e2) uploaded)

/-- `compress_image` applied to each URL of `row[2].split(",")` in order
(the list comprehension), then the row extended by the list of new URLs
as one trailing cell.  Any failure aborts the whole loop. -/
def mapTransform (t : String → Except String String) : List String → Except String (List String)
  | [] => .ok []
  | u :: us =>
    match t u with
    | .error e => .error e
    | .ok v =>
      match mapTransform t us with
      | .error e => .error e
      | .ok vs => .ok (v :: vs)

/-- The row loop of `process_file`: `row[2]` (an `IndexError` if the row is
short), the per-URL transforms, and the augmented row. -/
def processRows (t : String → Except String String) :
    List (List String) → Except String (List (List Cell))
  | [] => .ok []
  | row :: rest =>
    if row.length < 3 then .error "list index out of range"
    else
      match mapTransform t (splitComma (row.getD 2 "")) with
      | .error e => .error e
      | .ok ups =>
        match processRows t rest with
        | .error e => .error e
        | .ok rest' => .ok ((row.map Cell.str ++ [Cell.strList ups]) :: rest')

/-- The read-parse-transform part of the `process_file` body: fetch the
stored CSV (`read_from_s3` plus UTF-8 decode; an injected `readFail` models
their exceptions, a missing key raises `NoSuchKey`), take the header row
(`next` raises `StopIteration` on an empty reader), append the extra header
name, seed `new_csv = [[headers]]` — the extended header list wrapped in
one extra list, so the first output row has a single cell — and run the row
loop. -/
def pipeline_body (env : Env) (requestId : String) (w1 : World) :
    Except String (List (List Cell)) :=
  match env.readFail with
  | some e => .error e
  | none =>
    match assocLookup w1.s3 (requestId ++ ".csv") with
    | none =>
      .error "An error occurred (NoSuchKey) when calling the GetObject operation: The specified key does not exist."
    | some doc =>
      match doc with
      | [] => .error "StopIteration"
      | r0 :: drest =>
        match processRows env.transform (drest.map (fun r => r.map cellToString)) with
        | .error e => .error e
        | .ok body =>
          .ok ([Cell.strList (r0.map cellToString ++ ["Output Image Urls"])] :: body)

/-- The remainder of the `try` block once the `Processing` status is
written: run the body, overwrite `<requestId>.csv` with the new document,
write the `Completed` status; any exception reaches `fail_update`. -/
def run_body (env : Env) (requestId : String) (w1 : World) : World × RunOutcome :=
  match pipeline_body env requestId w1 with
  | .error e => fail_update env requestId e w1 false
  | .ok newCsv =>
    match env.s3Write with
    | .error e =>
      fail_update env requestId ("500: Error occurred while writing file to S3: " ++ e) w1 false
    | .ok _ =>
      let w2 : World := { w1 with s3 := assocInsert w1.s3 (requestId ++ ".csv") newCsv }
      match env.dbWrite "Processing completed successfully!" with
      | .error e =>
        fail_update env requestId ("500: Error occurred while writing to DB: " ++ e) w2 true
      | .ok _ =>
        ({ w2 with db := assocInsert w2.db requestId "Processing completed successfully!" },
         .completed)

/-- `process_file` from the source: persist the `Processing` status, then
run the rest of the `try` block; any exception reaches `fail_update`. -/
def process_file (env : Env) (requestId : String) (w : World) : World × RunOutcome :=
  match env.dbWrite "Processing in progress!" with
  | .error e =>
    fail_update env requestId ("500: Error occurred while writing to DB: " ++ e) w false
  | .ok _ =>
    run_body env requestId { w with db := assocInsert w.db requestId "Processing in progress!" }

/-! ## Status lookup (`read_from_db`, serving `GET /status/{requestId}`) -/

/-- `read_from_db` from the source.  `dbGet` is the `table.get_item`
outcome: an infrastructure exception message, or the optional stored
status.  The `except Exception` clause wraps every exception — including
the `HTTPException(404)` raised for a missing record — into a 500. -/
def read_from_db (dbGet : Except String (Option String)) (requestId : String) :
    Except HTTPErr Item :=
  let inner : Except String Item :=
    match dbGet with
    | .error e => .error e
    | .ok (some st) => .ok ⟨requestId, st⟩
    | .ok none => .error (strHTTPErr ⟨404, "requestId: " ++ requestId ++ " not found!"⟩)
  match inner with
  | .ok item => .ok item
  | .error e => .error ⟨500, "Exception occurred: " ++ e⟩

/-! ## Re-encoding dispatch of `compress_image` -/

/-- How `compress_image` re-encodes a decoded image, by detected format. -/
inductive ReencodeSpec
  | jpegQuality (q : Nat)
  | pngCompressLevel (l : Nat)
  | originalFormat (fmt : String)
deriving DecidableEq

/-- The format dispatch of `compress_image`: JPEG at `IMAGE_QUALITY`, PNG at
`IMAGE_QUALITY // 10`, anything else saved as-is in its own format
(`IMAGE_QUALITY` is a non-negative configured integer, so Python's `//`
is Nat division). -/
def compress_reencode (format : String) (image_quality : Nat) : ReencodeSpec :=
  if format = "JPEG" || format = "JPG" then .jpegQuality image_quality
  else if format = "PNG" then .pngCompressLevel (image_quality / 10)
  else .originalFormat format

/-! ## Claim-side and amended-side URL predicates for C6 -/

/-- The four dotted extensions, lowercase. -/
def dotExts : List (List Char) :=
  [['.', 'j', 'p', 'g'], ['.', 'j', 'p', 'e', 'g'], ['.', 'p', 'n', 'g'], ['.', 'g', 'i', 'f']]

/-- Definition following the words of claim C6 (not the source): a valid
entry has scheme http or https, a non-empty host/path with no whitespace,
ending in one of the four image extensions compared case-insensitively. -/
def specClaimValidUrl (url : String) : Bool :=
  let check : List Char → Bool := fun rest =>
    !rest.isEmpty && rest.all (fun c => !isPySpace c) &&
    dotExts.any (fun de =>
      decide (de.length ≤ rest.length) && listEqCI (rest.drop (rest.length - de.length)) de)
  match dropCI ['h', 't', 't', 'p', ':', '/', '/'] url.data with
  | some r => check r
  | none =>
    match dropCI ['h', 't', 't', 'p', 's', ':', '/', '/'] url.data with
    | some r => check r
    | none => false

/-- The amended URL condition, stated declaratively: the entry decomposes
as a case-insensitive scheme-and-separator, one character that is neither
whitespace nor one of `/ $ . ? #`, one arbitrary non-newline character
(whitespace allowed), a run of non-whitespace characters, and one of
`.jpg .jpeg .png .gif` (case-insensitive) at the very end. -/
def AmendedValidUrl (url : String) : Prop :=
  ∃ (p : List Char) (c0 c1 : Char) (mid de : List Char),
    url.data = p ++ c0 :: c1 :: (mid ++ de) ∧
    (p.map Char.toLower = ['h', 't', 't', 'p', ':', '/', '/'] ∨
     p.map Char.toLower = ['h', 't', 't', 'p', 's', ':', '/', '/']) ∧
    isPySpace c0 = false ∧
    c0 ∉ (['/', '$', '.', '?', '#'] : List Char) ∧
    c1 ≠ '\n' ∧
    (∀ c ∈ mid, isPySpace c = false) ∧
    de.map Char.toLower ∈ dotExts

/-! ## Concrete fixtures: a one-data-row job stored under key `r.csv` -/

/-- A healthy effect environment: every store call succeeds and every image
transform returns a fresh URL. -/
def goodEnv : Env :=
  ⟨fun _ => .ok (), none, fun u => .ok ("https://img/" ++ u), .ok ()⟩

/-- The world right after the spec's scenario upload: a `Pending` record and
the original two-row CSV under the job key. -/
def goodWorld : World :=
  ⟨[("r", "Processing Pending")],
   [("r.csv",
     [[Cell.str "sno", Cell.str "product_name", Cell.str "image_urls"],
      [Cell.str "1", Cell.str "Widget A", Cell.str "http://ab.jpg,http://cd.png"]])]⟩

/-- Like `goodEnv` but the job-store write of the `Completed` status fails. -/
def lateFailEnv : Env :=
  { goodEnv with
    dbWrite := fun s =>
      if s = "Processing completed successfully!" then .error "boom" else .ok () }

/-- Like `goodEnv` but every image transform fails (unreachable host). -/
def fetchFailEnv : Env := { goodEnv with transform := fun _ => .error "boom" }

/-- Like `goodEnv` but every job-store write fails. -/
def dbDownEnv : Env := { goodEnv with dbWrite := fun _ => .error "db down" }

/-- Witness world for C1: the fixture job after a failed fetch. -/
def fetchFailWorld : World :=
  ⟨[("r", "Processing failed due to boom!")], goodWorld.s3⟩

/-- Witness transform for C2: a fresh URL per input URL. -/
def cT : String → Except String String := fun u => .ok ("https://out/" ++ u)

/-! ## Instances and store lemmas -/

deriving instance DecidableEq for Except

theorem assocLookup_insert {α : Type} (l : List (String × α)) (k : String) (v : α) :
    assocLookup (assocInsert l k v) k = some v := by
  induction l with
  | nil => simp [assocInsert, assocLookup]
  | cons p t ih =>
    obtain ⟨k', v'⟩ := p
    by_cases h : k' = k
    · simp [assocInsert, assocLookup, h]
    · simp [assocInsert, assocLookup, h, ih]

/-! ## Lemmas about the failure handler -/

theorem fail_update_failed (env : Env) (rid e : String) (w : World) (up : Bool)
    (w' : World) (r : String) (up' : Bool)
    (h : fail_update env rid e w up = (w', .failed r up')) :
    r = e ∧ up' = up ∧ w'.s3 = w.s3 ∧ w'.db = assocInsert w.db rid (failStatusOf e) := by
  unfold fail_update at h
  split at h
  · obtain ⟨h1, h2⟩ := Prod.mk.injEq .. ▸ h
    obtain ⟨he, hu⟩ := RunOutcome.failed.injEq .. ▸ h2
    subst h1
    exact ⟨he.symm, hu.symm, rfl, rfl⟩
  · exact absurd (congrArg Prod.snd h) (by simp)

theorem fail_update_not_crashed (env : Env) (rid e : String) (w : World) (up : Bool)
    (h : env.dbWrite (failStatusOf e) = .ok ()) :
    ((fail_update env rid e w up).2).isCrashed = false := by
  unfold fail_update
  rw [h]
  rfl

/-! ## C7: re-encoding parameters -/

/-- C7: the transformer re-encodes JPEG at the configured quality, PNG at
the configured quality integer-divided by 10 (50 gives level 5), and every
other decodable format unchanged in its original format. -/
theorem c7_reencode_parameters (q : Nat) (fmt : String) :
    (fmt = "JPEG" ∨ fmt = "JPG" → compress_reencode fmt q = .jpegQuality q) ∧
    compress_reencode "PNG" q = .pngCompressLevel (q / 10) ∧
    compress_reencode "PNG" 50 = .pngCompressLevel 5 ∧
    (fmt ≠ "JPEG" → fmt ≠ "JPG" → fmt ≠ "PNG" → compress_reencode fmt q = .originalFormat fmt) := by
  refine ⟨fun h => ?_, by simp [compress_reencode], by simp [compress_reencode], ?_⟩
  · rcases h with h | h <;> simp [compress_reencode, h]
  · intro h1 h2 h3
    simp [compress_reencode, h1, h2, h3]

/-- Witness for C7 at quality 50 and formats JPEG, PNG, GIF. -/
theorem c7_reencode_parameters_witness :
    compress_reencode "JPEG" 50 = .jpegQuality 50 ∧
    compress_reencode "PNG" 50 = .pngCompressLevel 5 ∧
    compress_reencode "GIF" 50 = .originalFormat "GIF" :=
  ⟨(c7_reencode_parameters 50 "JPEG").1 (Or.inl rfl),
   (c7_reencode_parameters 50 "JPEG").2.2.1,
   (c7_reencode_parameters 50 "GIF").2.2.2 (by decide) (by decide) (by decide)⟩

/-! ## C4: status lookup for an unknown requestId -/

/-- C4 (code bug): for a requestId with no stored record, `read_from_db`
does raise the 404 inside its `try`, but the blanket `except Exception`
clause catches that very `HTTPException` and re-raises it as a 500, so
`GET /status/{requestId}` answers 500, not 404. -/
theorem c4_unknown_request_yields_500 :
    read_from_db (.ok none) "abc" =
      .error ⟨500, "Exception occurred: 404: requestId: abc not found!"⟩ ∧
    read_from_db (.ok (some "Processing Pending")) "abc" =
      .ok ⟨"abc", "Processing Pending"⟩ ∧
    read_from_db (.error "connect timeout") "abc" =
      .error ⟨500, "Exception occurred: connect timeout"⟩ :=
  ⟨rfl, rfl, rfl⟩

/-! ## C3: shape of the written header row -/

/-- C3 (code bug): on the spec's own scenario the run completes, but because
`process_file` seeds `new_csv = [[headers]]` — the extended header list
wrapped in one extra list — the written header row consists of a single
cell containing the rendered 4-name list, not of 4 columns. -/
theorem c3_header_row_written_as_single_cell :
    (process_file goodEnv "r" goodWorld).2 = RunOutcome.completed ∧
    assocLookup (process_file goodEnv "r" goodWorld).1.s3 "r.csv" =
      some [[Cell.strList ["sno", "product_name", "image_urls", "Output Image Urls"]],
            [Cell.str "1", Cell.str "Widget A", Cell.str "http://ab.jpg,http://cd.png",
             Cell.strList ["https://img/http://ab.jpg", "https://img/http://cd.png"]]] ∧
    (((assocLookup (process_file goodEnv "r" goodWorld).1.s3 "r.csv").getD []).getD 0 []).length
      = 1 ∧
    ["sno", "product_name", "image_urls", "Output Image Urls"].length = 4 := by
  decide

/-! ## C8: background faults and the failure handler -/

theorem run_body_not_crashed (env : Env) (rid : String) (w1 : World)
    (h : ∀ s, env.dbWrite s = .ok ()) :
    ((run_body env rid w1).2).isCrashed = false := by
  unfold run_body
  cases hbody : pipeline_body env rid w1 with
  | error e => exact fail_update_not_crashed _ _ _ _ _ (h _)
  | ok newCsv =>
    cases hs3w : env.s3Write with
    | error e => exact fail_update_not_crashed _ _ _ _ _ (h _)
    | ok u =>
      rw [h "Processing completed successfully!"]
      rfl

/-- C8 (amended): every error raised in the body of a background run is
caught and converted into a `Failed` status write; as long as the job store
accepts every status write, no fault ever escapes the background unit. -/
theorem c8_errors_caught_when_db_up (env : Env) (requestId : String) (w : World)
    (h : ∀ s, env.dbWrite s = .ok ()) :
    ((process_file env requestId w).2).isCrashed = false := by
  unfold process_file
  rw [h "Processing in progress!"]
  exact run_body_not_crashed env requestId _ h

/-- Witness for C8 (amended): a run whose image fetch fails but whose job
store is healthy does not crash. -/
theorem c8_errors_caught_witness :
    ((process_file fetchFailEnv "r" goodWorld).2).isCrashed = false :=
  c8_errors_caught_when_db_up fetchFailEnv "r" goodWorld (fun _ => rfl)

/-- C8 counterexample to the claim as stated: when the job store is down,
the first body error is caught, but persisting the `Failed` status raises
again inside the `except` block and that exception escapes the background
unit unhandled. -/
theorem c8_db_failure_escapes :
    ((process_file dbDownEnv "r" goodWorld).2).isCrashed = true ∧
    (process_file dbDownEnv "r" goodWorld).2 =
      .crashed "500: Error occurred while writing to DB: db down"
        "500: Error occurred while writing to DB: db down" false := by
  decide

/-! ## C1: failure aborts the run and leaves the original document -/

theorem run_body_failed_false (env : Env) (rid : String) (w1 w' : World) (r : String)
    (h : run_body env rid w1 = (w', .failed r false)) :
    w'.s3 = w1.s3 ∧ w'.db = assocInsert w1.db rid (failStatusOf r) := by
  unfold run_body at h
  cases hbody : pipeline_body env rid w1 with
  | error e =>
    rw [hbody] at h
    obtain ⟨he, hu, hs3, hdb⟩ := fail_update_failed _ _ _ _ _ _ _ _ h
    subst he
    exact ⟨hs3, hdb⟩
  | ok newCsv =>
    rw [hbody] at h
    cases hs3w : env.s3Write with
    | error e =>
      rw [hs3w] at h
      obtain ⟨he, hu, hs3, hdb⟩ := fail_update_failed _ _ _ _ _ _ _ _ h
      subst he
      exact ⟨hs3, hdb⟩
    | ok u =>
      rw [hs3w] at h
      cases hdb2 : env.dbWrite "Processing completed successfully!" with
      | error e =>
        rw [hdb2] at h
        obtain ⟨he, hu, hs3, hdb⟩ := fail_update_failed _ _ _ _ _ _ _ _ h
        exact Bool.noConfusion hu
      | ok u2 =>
        rw [hdb2] at h
        exact RunOutcome.noConfusion (congrArg Prod.snd h)

/-- C1 (amended): whenever a background run ends `Failed` without the
result upload having succeeded, the blob store is exactly as before the run
(in particular the original document under the job key is untouched) and
the job record holds the failure status built from the triggering error. -/
theorem c1_failure_before_upload_preserves_original (env : Env) (rid : String)
    (w w' : World) (r : String)
    (h : process_file env rid w = (w', .failed r false)) :
    w'.s3 = w.s3 ∧ assocLookup w'.db rid = some (failStatusOf r) := by
  unfold process_file at h
  cases hdb1 : env.dbWrite "Processing in progress!" with
  | error e =>
    rw [hdb1] at h
    obtain ⟨he, hu, hs3, hdb⟩ := fail_update_failed _ _ _ _ _ _ _ _ h
    subst he
    refine ⟨hs3, ?_⟩
    rw [hdb]
    exact assocLookup_insert _ _ _
  | ok u =>
    rw [hdb1] at h
    obtain ⟨hs3, hdb⟩ := run_body_failed_false _ _ _ _ _ h
    refine ⟨hs3, ?_⟩
    rw [hdb]
    exact assocLookup_insert _ _ _

/-- Witness for C1 (amended) on the fixture run whose image fetch fails. -/
theorem c1_failure_before_upload_witness :
    fetchFailWorld.s3 = goodWorld.s3 ∧
    assocLookup fetchFailWorld.db "r" = some (failStatusOf "boom") :=
  c1_failure_before_upload_preserves_original fetchFailEnv "r" goodWorld
    fetchFailWorld "boom" (by decide)

/-- C1 counterexample to the claim as stated: when the body error is the
storage failure of the `Completed` status write, the job does end `Failed`,
but the result CSV has already been uploaded and the original document
under the job key has been replaced. -/
theorem c1_failed_after_upload_overwrites :
    (process_file lateFailEnv "r" goodWorld).2 =
      .failed "500: Error occurred while writing to DB: boom" true ∧
    assocLookup (process_file lateFailEnv "r" goodWorld).1.s3 "r.csv" ≠
      assocLookup goodWorld.s3 "r.csv" ∧
    assocLookup (process_file lateFailEnv "r" goodWorld).1.db "r" =
      some (failStatusOf "500: Error occurred while writing to DB: boom") := by
  decide

/-! ## Validator helper lemmas -/

theorem firstErr_append_ok (pre l : List (List String))
    (h : ∀ r ∈ pre, checkRow r = none) :
    firstErr (pre ++ l) = firstErr l := by
  induction pre with
  | nil => rfl
  | cons a t ih =>
    simp only [List.cons_append, firstErr]
    rw [h a (by simp)]
    exact ih (fun r hr => h r (by simp [hr]))

theorem checkRow_overlong (row : List String) (h : 3 < row.length) :
    checkRow row = some (.pyexc "too many values to unpack (expected 3)") := by
  unfold checkRow
  have h1 : ¬ row.length < 3 := by omega
  have h2 : row.length ≠ 3 := by omega
  simp [h1, h2]

theorem firstErr_mem_overlong (l : List (List String)) (bad : List String)
    (hmem : bad ∈ l) (hlen : 3 < bad.length) :
    ∃ e, firstErr l = .error e := by
  induction l with
  | nil => cases hmem
  | cons a t ih =>
    cases hca : checkRow a with
    | some e => exact ⟨e, by simp [firstErr, hca]⟩
    | none =>
      have hbt : bad ∈ t := by
        rcases List.mem_cons.mp hmem with hba | hba
        · subst hba
          rw [checkRow_overlong bad hlen] at hca
          cases hca
        · exact hba
      obtain ⟨e, he⟩ := ih hbt
      exact ⟨e, by simp [firstErr, hca, he]⟩

theorem upload_csv_validate_error (vh : List String) (maxFS : Nat) (env : UploadEnv)
    (f : UploadFile) (w : World) (rows : List (List String)) (e : ValErr)
    (hc : f.content = .ok rows) (hv : validate_csv vh rows = .error e) :
    ∃ he : HTTPErr, upload_csv vh maxFS env f w = (w, .error he, false) := by
  by_cases h1 : f.content_type ≠ "text/csv"
  · exact ⟨⟨400, "Only CSV files are allowed"⟩, by simp [upload_csv, h1]⟩
  · by_cases h2 : maxFS < f.size
    · exact ⟨⟨400, "File size exceeds the 2 MB limit!"⟩, by simp [upload_csv, h1, h2]⟩
    · cases e with
      | http c d => exact ⟨⟨c, d⟩, by simp [upload_csv, h1, h2, hc, hv]⟩
      | pyexc m =>
        exact ⟨⟨500, "CSV parsing failed with exception: " ++ m⟩,
          by simp [upload_csv, h1, h2, hc, hv]⟩

/-! ## C5: header mismatch -/

/-- C5 (amended): an uploaded CSV that passes the type and size gates and
has at least one data row but a header row differing from the configured
list is rejected with the 400 header-mismatch error, and neither store is
touched (no job record, no blob). -/
theorem c5_header_mismatch_rejected (vh : List String) (maxFS : Nat) (env : UploadEnv)
    (f : UploadFile) (w : World) (hdr : List String) (dataRows : List (List String))
    (h1 : f.content_type = "text/csv") (h2 : f.size ≤ maxFS)
    (h3 : f.content = .ok (hdr :: dataRows)) (h4 : dataRows ≠ []) (h5 : hdr ≠ vh) :
    upload_csv vh maxFS env f w =
      (w, .error ⟨400, "CSV file headers are invalid. Allowed headers are " ++ pyRepr vh⟩,
       false) := by
  have hlt : ¬ maxFS < f.size := Nat.not_lt.mpr h2
  have hlen : ¬ (hdr :: dataRows).length ≤ 1 := by simpa using h4
  simp [upload_csv, validate_csv, h1, h3, h4, hlt, hlen, h5]

/-- Witness for C5 (amended): a concrete reordered-header upload. -/
theorem c5_header_mismatch_witness :
    upload_csv ["sno", "product_name", "image_urls"] 1000 ⟨"id1", .ok (), .ok ()⟩
      ⟨"text/csv", 10,
       .ok [["product_name", "sno", "image_urls"], ["1", "A", "http://ab.jpg"]]⟩
      ⟨[], []⟩ =
      (⟨[], []⟩,
       .error ⟨400, "CSV file headers are invalid. Allowed headers are " ++
         pyRepr ["sno", "product_name", "image_urls"]⟩,
       false) :=
  c5_header_mismatch_rejected ["sno", "product_name", "image_urls"] 1000
    ⟨"id1", .ok (), .ok ()⟩
    ⟨"text/csv", 10,
     .ok [["product_name", "sno", "image_urls"], ["1", "A", "http://ab.jpg"]]⟩
    ⟨[], []⟩ ["product_name", "sno", "image_urls"] [["1", "A", "http://ab.jpg"]]
    rfl (by decide) rfl (by decide) (by decide)

/-- C5 counterexample to the claim as stated: a CSV whose sole row is a
mismatched header fails the row-count guard first, so the reported error is
the empty-file one, not the header-mismatch one. -/
theorem c5_header_only_file_reports_empty :
    validate_csv ["sno", "product_name", "image_urls"] [["a", "b", "c"]] =
      .error (.http 400 "CSV file is empty") ∧
    "CSV file is empty" ≠
      "CSV file headers are invalid. Allowed headers are " ++
        pyRepr ["sno", "product_name", "image_urls"] := by
  refine ⟨rfl, ?_⟩
  decide

/-! ## C9: size boundary -/

/-- C9: an upload exactly at the configured maximum size passes the size
gate (an otherwise-valid file succeeds end to end), and an upload one byte
over is rejected with the 400 size error before anything is stored. -/
theorem c9_size_boundary (vh : List String) (maxFS : Nat) (env : UploadEnv)
    (f : UploadFile) (w : World) (rows : List (List String)) :
    (f.content_type = "text/csv" → f.size = maxFS → f.content = .ok rows →
      validate_csv vh rows = .ok () → env.s3Put = .ok () → env.dbPut = .ok () →
      (upload_csv vh maxFS env f w).2.1 = .ok env.freshId) ∧
    (f.content_type = "text/csv" → f.size = maxFS + 1 →
      upload_csv vh maxFS env f w =
        (w, .error ⟨400, "File size exceeds the 2 MB limit!"⟩, false)) := by
  constructor
  · intro h1 h2 h3 h4 h5 h6
    have hlt : ¬ maxFS < f.size := by omega
    simp [upload_csv, h1, h2, h3, h4, h5, h6, hlt]
  · intro h1 h2
    have hlt : maxFS < f.size := by omega
    simp [upload_csv, h1, hlt]

/-- Witness for C9: a valid 2-row CSV at exactly the 10-byte cap succeeds,
and the same upload at 11 bytes is rejected with the size error. -/
theorem c9_size_boundary_witness :
    (upload_csv ["sno", "product_name", "image_urls"] 10 ⟨"id1", .ok (), .ok ()⟩
      ⟨"text/csv", 10,
       .ok [["sno", "product_name", "image_urls"], ["1", "Widget A", "http://ab.jpg"]]⟩
      ⟨[], []⟩).2.1 = .ok "id1" ∧
    upload_csv ["sno", "product_name", "image_urls"] 10 ⟨"id1", .ok (), .ok ()⟩
      ⟨"text/csv", 11,
       .ok [["sno", "product_name", "image_urls"], ["1", "Widget A", "http://ab.jpg"]]⟩
      ⟨[], []⟩ =
      (⟨[], []⟩, .error ⟨400, "File size exceeds the 2 MB limit!"⟩, false) :=
  ⟨(c9_size_boundary ["sno", "product_name", "image_urls"] 10 ⟨"id1", .ok (), .ok ()⟩
      ⟨"text/csv", 10,
       .ok [["sno", "product_name", "image_urls"], ["1", "Widget A", "http://ab.jpg"]]⟩
      ⟨[], []⟩ [["sno", "product_name", "image_urls"], ["1", "Widget A", "http://ab.jpg"]]).1
    rfl rfl rfl (by decide) rfl rfl,
   (c9_size_boundary ["sno", "product_name", "image_urls"] 10 ⟨"id1", .ok (), .ok ()⟩
      ⟨"text/csv", 11,
       .ok [["sno", "product_name", "image_urls"], ["1", "Widget A", "http://ab.jpg"]]⟩
      ⟨[], []⟩ [["sno", "product_name", "image_urls"], ["1", "Widget A", "http://ab.jpg"]]).2
    rfl rfl⟩

/-! ## C10: rows with more than 3 fields -/

/-- C10 (amended): a CSV containing a data row with more than 3 fields is
always rejected with neither a job record nor a blob created; and whenever
every data row before the over-long one passes the row checks, the
rejection is the 500 response produced by the failed three-way unpacking
(`ValueError`), not a 400 validation error. -/
theorem c10_overlong_row_rejected_500 (vh : List String) (maxFS : Nat) (env : UploadEnv)
    (f : UploadFile) (w : World) (rows : List (List String)) (hdr bad : List String)
    (dataRows : List (List String))
    (hc : f.content = .ok rows) (hr : rows = hdr :: dataRows) :
    (bad ∈ dataRows → 3 < bad.length →
      ∃ he : HTTPErr, upload_csv vh maxFS env f w = (w, .error he, false)) ∧
    (∀ pre post, dataRows = pre ++ bad :: post → (∀ r ∈ pre, checkRow r = none) →
      3 < bad.length → f.content_type = "text/csv" → f.size ≤ maxFS → hdr = vh →
      upload_csv vh maxFS env f w =
        (w, .error ⟨500, "CSV parsing failed with exception: too many values to unpack (expected 3)"⟩,
         false)) := by
  constructor
  · intro hmem hlen
    have hne : dataRows ≠ [] := List.ne_nil_of_mem hmem
    have hval : ∃ e, validate_csv vh rows = .error e := by
      subst hr
      by_cases hh : hdr = vh
      · obtain ⟨e, he⟩ := firstErr_mem_overlong dataRows bad hmem hlen
        exact ⟨e, by simp [validate_csv, hne, hh, he]⟩
      · exact ⟨.http 400 ("CSV file headers are invalid. Allowed headers are " ++ pyRepr vh),
          by simp [validate_csv, hne, hh]⟩
    obtain ⟨e, he⟩ := hval
    exact upload_csv_validate_error vh maxFS env f w rows e hc he
  · intro pre post hsplit hpre hlen h1 h2 hh
    have hlt : ¬ maxFS < f.size := Nat.not_lt.mpr h2
    have hne : dataRows ≠ [] := by
      rw [hsplit]
      exact List.append_ne_nil_of_right_ne_nil pre (by simp)
    have hfe : firstErr dataRows =
        .error (.pyexc "too many values to unpack (expected 3)") := by
      rw [hsplit, firstErr_append_ok pre (bad :: post) hpre]
      simp [firstErr, checkRow_overlong bad hlen]
    have hval : validate_csv vh rows =
        .error (.pyexc "too many values to unpack (expected 3)") := by
      rw [hr]
      simp [validate_csv, hne, hh, hfe]
    simp [upload_csv, h1, hlt, hc, hval]

/-- Witness for C10 (amended): a 4-field second data row behind one valid
row yields the 500 unpack error and leaves the world untouched. -/
theorem c10_overlong_row_witness :
    upload_csv ["sno", "product_name", "image_urls"] 1000 ⟨"id1", .ok (), .ok ()⟩
      ⟨"text/csv", 10,
       .ok [["sno", "product_name", "image_urls"], ["1", "A", "http://ab.jpg"],
            ["2", "B", "http://cd.png", "extra"]]⟩
      ⟨[], []⟩ =
      (⟨[], []⟩,
       .error ⟨500, "CSV parsing failed with exception: too many values to unpack (expected 3)"⟩,
       false) :=
  (c10_overlong_row_rejected_500 ["sno", "product_name", "image_urls"] 1000
      ⟨"id1", .ok (), .ok ()⟩
      ⟨"text/csv", 10,
       .ok [["sno", "product_name", "image_urls"], ["1", "A", "http://ab.jpg"],
            ["2", "B", "http://cd.png", "extra"]]⟩
      ⟨[], []⟩ _ ["sno", "product_name", "image_urls"] ["2", "B", "http://cd.png", "extra"]
      [["1", "A", "http://ab.jpg"], ["2", "B", "http://cd.png", "extra"]]
      rfl rfl).2
    [["1", "A", "http://ab.jpg"]] [] rfl
    (by intro r hr; simp at hr; subst hr; decide)
    (by decide) rfl (by decide) rfl

/-- C10 counterexample to the claim as stated: when an earlier data row is
itself invalid, a CSV that does contain a 4-field row is rejected with that
row's 400 validation error, not with a 500. -/
theorem c10_earlier_row_error_yields_400 :
    upload_csv ["sno", "product_name", "image_urls"] 1000 ⟨"id1", .ok (), .ok ()⟩
      ⟨"text/csv", 10,
       .ok [["sno", "product_name", "image_urls"], ["x", "A", "http://ab.jpg"],
            ["1", "A", "http://ab.jpg", "extra"]]⟩
      ⟨[], []⟩ =
      (⟨[], []⟩, .error ⟨400, "Invalid S.No. (not a number): x"⟩, false) := by
  decide

/-! ## C2: row and column counts of the enriched document -/

theorem mapTransform_ok (t : String → Except String String) (us : List String)
    (vs : List String) (h : mapTransform t us = .ok vs) :
    vs.length = us.length ∧
    ∀ j, j < us.length → t (us.getD j "") = .ok (vs.getD j "") := by
  induction us generalizing vs with
  | nil =>
    cases h
    exact ⟨rfl, fun j hj => absurd hj (by simp)⟩
  | cons u urest ih =>
    unfold mapTransform at h
    cases htu : t u with
    | error e => rw [htu] at h; cases h
    | ok v =>
      rw [htu] at h
      cases hrest : mapTransform t urest with
      | error e => rw [hrest] at h; cases h
      | ok vrest =>
        rw [hrest] at h
        cases h
        obtain ⟨hlen, hall⟩ := ih vrest hrest
        refine ⟨by simp [hlen], fun j hj => ?_⟩
        cases j with
        | zero => simpa using htu
        | succ j' =>
          have hj' : j' < urest.length := by simpa using hj
          simpa using hall j' hj'

/-- C2: when the row loop succeeds, the output has exactly one enriched row
per input data row; each output row is the input row's cells plus one
trailing cell holding the list of new URLs; that list has exactly one entry
per comma-separated input URL, produced by the transformer in the same
order. -/
theorem c2_row_counts_preserved (t : String → Except String String)
    (rows : List (List String)) (out : List (List Cell))
    (h : processRows t rows = .ok out) :
    out.length = rows.length ∧
    ∀ i, i < rows.length →
      ∃ ups : List String,
        out.getD i [] = ((rows.getD i []).map Cell.str) ++ [Cell.strList ups] ∧
        (out.getD i []).length = (rows.getD i []).length + 1 ∧
        ups.length = (splitComma ((rows.getD i []).getD 2 "")).length ∧
        ∀ j, j < ups.length →
          t ((splitComma ((rows.getD i []).getD 2 "")).getD j "") = .ok (ups.getD j "") := by
  induction rows generalizing out with
  | nil =>
    cases h
    exact ⟨rfl, fun i hi => absurd hi (by simp)⟩
  | cons row rest ih =>
    unfold processRows at h
    by_cases hlen : row.length < 3
    · rw [if_pos hlen] at h; cases h
    · rw [if_neg hlen] at h
      cases hmt : mapTransform t (splitComma (row.getD 2 "")) with
      | error e => rw [hmt] at h; cases h
      | ok ups =>
        rw [hmt] at h
        cases hpr : processRows t rest with
        | error e => rw [hpr] at h; cases h
        | ok out' =>
          rw [hpr] at h
          cases h
          obtain ⟨hlen', hall⟩ := ih out' hpr
          obtain ⟨hulen, huall⟩ := mapTransform_ok t _ ups hmt
          refine ⟨by simp [hlen'], fun i hi => ?_⟩
          cases i with
          | zero =>
            refine ⟨ups, by simp, by simp, by simpa using hulen, fun j hj => ?_⟩
            simpa using huall j (by omega)
          | succ i' =>
            have hi' : i' < rest.length := by simpa using hi
            simpa using hall i' hi'

/-- Witness for C2 on a one-row CSV with two image URLs, at row index 0. -/
theorem c2_row_counts_witness :
    ∃ ups : List String,
      ([[Cell.str "1", Cell.str "A", Cell.str "http://ab.jpg,http://cd.png",
         Cell.strList ["https://out/http://ab.jpg", "https://out/http://cd.png"]]] :
          List (List Cell)).getD 0 [] =
        ((([["1", "A", "http://ab.jpg,http://cd.png"]] :
            List (List String)).getD 0 []).map Cell.str) ++ [Cell.strList ups] ∧
      (([[Cell.str "1", Cell.str "A", Cell.str "http://ab.jpg,http://cd.png",
          Cell.strList ["https://out/http://ab.jpg", "https://out/http://cd.png"]]] :
          List (List Cell)).getD 0 []).length =
        ((([["1", "A", "http://ab.jpg,http://cd.png"]] :
            List (List String)).getD 0 []).length) + 1 ∧
      ups.length =
        (splitComma ((([["1", "A", "http://ab.jpg,http://cd.png"]] :
          List (List String)).getD 0 []).getD 2 "")).length ∧
      ∀ j, j < ups.length →
        cT ((splitComma ((([["1", "A", "http://ab.jpg,http://cd.png"]] :
          List (List String)).getD 0 []).getD 2 "")).getD j "") = .ok (ups.getD j "") :=
  (c2_row_counts_preserved cT [["1", "A", "http://ab.jpg,http://cd.png"]]
      [[Cell.str "1", Cell.str "A", Cell.str "http://ab.jpg,http://cd.png",
        Cell.strList ["https://out/http://ab.jpg", "https://out/http://cd.png"]]]
      (by decide)).2 0 (by decide)

/-! ## C6: equivalence of the regex matcher with its declarative reading -/

theorem dropCI_some_iff (pat cs r : List Char) :
    dropCI pat cs = some r ↔
      ∃ p, cs = p ++ r ∧ p.map Char.toLower = pat.map Char.toLower := by
  induction pat generalizing cs with
  | nil =>
    unfold dropCI
    constructor
    · intro h
      cases h
      exact ⟨[], rfl, rfl⟩
    · rintro ⟨p, hcs, hp⟩
      have hpn : p = [] := by simpa using hp
      subst hpn
      simpa using hcs
  | cons pc pt ih =>
    cases cs with
    | nil =>
      unfold dropCI
      constructor
      · intro h; cases h
      · rintro ⟨p, hcs, hp⟩
        cases p with
        | nil => simp at hp
        | cons a p' => cases hcs
    | cons c ct =>
      unfold dropCI
      by_cases hc : c.toLower = pc.toLower
      · rw [if_pos hc, ih]
        constructor
        · rintro ⟨p', hct, hp'⟩
          exact ⟨c :: p', by simp [hct], by simp [hp', hc]⟩
        · rintro ⟨p, hcs, hp⟩
          cases p with
          | nil => simp at hp
          | cons a p' =>
            simp only [List.cons_append, List.cons.injEq] at hcs
            obtain ⟨hac, hct⟩ := hcs
            simp only [List.map_cons, List.cons.injEq] at hp
            obtain ⟨_, hp'⟩ := hp
            exact ⟨p', hct, hp'⟩
      · rw [if_neg hc]
        constructor
        · intro h; cases h
        · rintro ⟨p, hcs, hp⟩
          cases p with
          | nil => simp at hp
          | cons a p' =>
            simp only [List.cons_append, List.cons.injEq] at hcs
            simp only [List.map_cons, List.cons.injEq] at hp
            exact absurd (hcs.1 ▸ hp.1) hc

theorem extMatch_iff (rest ext : List Char) :
    extMatch rest ext = true ↔
      ∃ mid de, rest = mid ++ de ∧
        de.map Char.toLower = ('.' :: ext).map Char.toLower ∧
        ∀ c ∈ mid, isPySpace c = false := by
  unfold extMatch
  constructor
  · intro h
    simp only [Bool.and_eq_true, decide_eq_true_eq, listEqCI, beq_iff_eq,
      List.all_eq_true, Bool.not_eq_true'] at h
    obtain ⟨⟨hle, hdrop⟩, htake⟩ := h
    exact ⟨rest.take (rest.length - (ext.length + 1)),
      rest.drop (rest.length - (ext.length + 1)),
      (List.take_append_drop _ _).symm, by simpa using hdrop, htake⟩
  · rintro ⟨mid, de, hrest, hde, hmid⟩
    have hdelen : de.length = ext.length + 1 := by
      have := congrArg List.length hde
      simpa using this
    have hk : rest.length - (ext.length + 1) = mid.length := by
      subst hrest
      simp [hdelen]
    simp only [Bool.and_eq_true, decide_eq_true_eq, listEqCI, beq_iff_eq,
      List.all_eq_true, Bool.not_eq_true', hk]
    subst hrest
    refine ⟨⟨by simp [hdelen], ?_⟩, ?_⟩
    · rw [List.drop_left]
      simpa using hde
    · rw [List.take_left]
      exact hmid

theorem getLast?_append_ne {α : Type} (l r : List α) (h : r ≠ []) :
    (l ++ r).getLast? = r.getLast? := by
  induction l with
  | nil => rfl
  | cons a t ih =>
    cases htr : t ++ r with
    | nil => exact absurd (List.append_eq_nil.mp htr).2 h
    | cons x xs =>
      rw [List.cons_append, htr, List.getLast?_cons_cons, ← htr]
      exact ih

theorem tailMatch_iff (rest : List Char)
    (hLast : ∀ c, rest.getLast? = some c → isPySpace c = false) :
    tailMatch rest = true ↔
      ∃ mid de, rest = mid ++ de ∧ de.map Char.toLower ∈ dotExts ∧
        ∀ c ∈ mid, isPySpace c = false := by
  unfold tailMatch
  constructor
  · intro h
    simp only [Bool.or_eq_true] at h
    rcases h with h | h
    · simp only [List.any_eq_true] at h
      obtain ⟨ext, hextmem, hm⟩ := h
      obtain ⟨mid, de, hrest, hde, hmid⟩ := (extMatch_iff rest ext).mp hm
      refine ⟨mid, de, hrest, ?_, hmid⟩
      rw [hde]
      simp only [imageExts, List.mem_cons, List.not_mem_nil, or_false] at hextmem
      rcases hextmem with h4 | h4 | h4 | h4 <;> subst h4 <;> decide
    · cases hgl : rest.getLast? with
      | none => rw [hgl] at h; cases h
      | some c =>
        rw [hgl] at h
        simp only [Bool.and_eq_true, decide_eq_true_eq] at h
        have hns := hLast c hgl
        rw [h.1] at hns
        simp [isPySpace] at hns
  · rintro ⟨mid, de, hrest, hde, hmid⟩
    simp only [Bool.or_eq_true]
    left
    simp only [dotExts, List.mem_cons, List.not_mem_nil, or_false] at hde
    simp only [List.any_eq_true]
    rcases hde with h4 | h4 | h4 | h4
    · exact ⟨['j', 'p', 'g'], by decide,
        (extMatch_iff rest _).mpr ⟨mid, de, hrest, by rw [h4]; decide, hmid⟩⟩
    · exact ⟨['j', 'p', 'e', 'g'], by decide,
        (extMatch_iff rest _).mpr ⟨mid, de, hrest, by rw [h4]; decide, hmid⟩⟩
    · exact ⟨['p', 'n', 'g'], by decide,
        (extMatch_iff rest _).mpr ⟨mid, de, hrest, by rw [h4]; decide, hmid⟩⟩
    · exact ⟨['g', 'i', 'f'], by decide,
        (extMatch_iff rest _).mpr ⟨mid, de, hrest, by rw [h4]; decide, hmid⟩⟩

theorem matchAfterScheme_iff (rest : List Char)
    (hLast : ∀ c, rest.getLast? = some c → isPySpace c = false) :
    matchAfterScheme rest = true ↔
      ∃ (c0 c1 : Char) (mid de : List Char),
        rest = c0 :: c1 :: (mid ++ de) ∧
        isPySpace c0 = false ∧ c0 ∉ (['/', '$', '.', '?', '#'] : List Char) ∧
        c1 ≠ '\n' ∧ (∀ c ∈ mid, isPySpace c = false) ∧
        de.map Char.toLower ∈ dotExts := by
  cases rest with
  | nil =>
    unfold matchAfterScheme
    simp
  | cons c0 rest' =>
    cases rest' with
    | nil =>
      unfold matchAfterScheme
      simp
    | cons c1 rest2 =>
      have hLast2 : ∀ c, rest2.getLast? = some c → isPySpace c = false := by
        intro c hc
        apply hLast
        cases rest2 with
        | nil => cases hc
        | cons x xs => rw [List.getLast?_cons_cons, List.getLast?_cons_cons]; exact hc
      unfold matchAfterScheme
      constructor
      · intro h
        simp only [Bool.and_eq_true, Bool.not_eq_true', Bool.or_eq_true, beq_iff_eq] at h
        obtain ⟨⟨⟨h0, hcls⟩, h1⟩, htm⟩ := h
        obtain ⟨mid, de, hr2, hde, hmid⟩ := (tailMatch_iff rest2 hLast2).mp htm
        refine ⟨c0, c1, mid, de, by rw [hr2], h0, ?_, ?_, hmid, hde⟩
        · simp only [List.mem_cons, List.not_mem_nil, or_false]
          intro hmem
          rcases hmem with h' | h' | h' | h' | h' <;>
            exact absurd (by simp [h']) (Bool.eq_false_iff.mp hcls)
        · intro hn
          rw [hn] at h1
          simp at h1
      · rintro ⟨c0', c1', mid, de, heq, h0, hcls, h1, hmid, hde⟩
        obtain ⟨rfl, rfl, hr2⟩ : c0' = c0 ∧ c1' = c1 ∧ rest2 = mid ++ de := by
          simp only [List.cons.injEq] at heq
          exact ⟨heq.1.symm, heq.2.1.symm, heq.2.2⟩
        simp only [Bool.and_eq_true, Bool.not_eq_true', Bool.or_eq_true, beq_iff_eq]
        refine ⟨⟨⟨h0, ?_⟩, ?_⟩, (tailMatch_iff rest2 hLast2).mpr ⟨mid, de, hr2, hde, hmid⟩⟩
        · simp only [List.mem_cons, List.not_mem_nil, or_false] at hcls
          push_neg at hcls
          simp [hcls.1, hcls.2.1, hcls.2.2.1, hcls.2.2.2.1, hcls.2.2.2.2]
        · simp [h1]

theorem head?_dropWhile_isPySpace (l : List Char) (c : Char)
    (h : (l.dropWhile isPySpace).head? = some c) : isPySpace c = false := by
  induction l with
  | nil => cases h
  | cons a t ih =>
    rw [List.dropWhile_cons] at h
    by_cases hpa : isPySpace a = true
    · rw [if_pos hpa] at h
      exact ih h
    · rw [if_neg hpa] at h
      cases h
      exact Bool.eq_false_iff.mpr hpa

theorem pyStrip_getLast (s : String) (c : Char)
    (h : (pyStrip s).data.getLast? = some c) : isPySpace c = false := by
  have h' : ((s.data.dropWhile isPySpace).reverse.dropWhile isPySpace).reverse.getLast?
      = some c := h
  rw [List.getLast?_reverse] at h'
  exact head?_dropWhile_isPySpace _ _ h'

theorem is_valid_image_url_iff (url : String)
    (hLast : ∀ c, url.data.getLast? = some c → isPySpace c = false) :
    is_valid_image_url url = true ↔ AmendedValidUrl url := by
  unfold is_valid_image_url AmendedValidUrl
  constructor
  · intro h
    simp only [Bool.or_eq_true] at h
    rcases h with h | h
    · cases hdc : dropCI ['h', 't', 't', 'p', ':', '/', '/'] url.data with
      | none => rw [hdc] at h; cases h
      | some r =>
        rw [hdc] at h
        obtain ⟨p, hsplit, hp⟩ := (dropCI_some_iff _ _ _).mp hdc
        have hrne : r ≠ [] := by
          intro hr
          rw [hr] at h
          cases h
        have hLr : ∀ c, r.getLast? = some c → isPySpace c = false := by
          intro c hc
          apply hLast
          rw [hsplit, getLast?_append_ne _ _ hrne]
          exact hc
        obtain ⟨c0, c1, mid, de, hr, h0, hcls, h1, hmid, hde⟩ :=
          (matchAfterScheme_iff r hLr).mp h
        exact ⟨p, c0, c1, mid, de, by rw [hsplit, hr],
          Or.inl (hp.trans (by decide)), h0, hcls, h1, hmid, hde⟩
    · cases hdc : dropCI ['h', 't', 't', 'p', 's', ':', '/', '/'] url.data with
      | none => rw [hdc] at h; cases h
      | some r =>
        rw [hdc] at h
        obtain ⟨p, hsplit, hp⟩ := (dropCI_some_iff _ _ _).mp hdc
        have hrne : r ≠ [] := by
          intro hr
          rw [hr] at h
          cases h
        have hLr : ∀ c, r.getLast? = some c → isPySpace c = false := by
          intro c hc
          apply hLast
          rw [hsplit, getLast?_append_ne _ _ hrne]
          exact hc
        obtain ⟨c0, c1, mid, de, hr, h0, hcls, h1, hmid, hde⟩ :=
          (matchAfterScheme_iff r hLr).mp h
        exact ⟨p, c0, c1, mid, de, by rw [hsplit, hr],
          Or.inr (hp.trans (by decide)), h0, hcls, h1, hmid, hde⟩
  · rintro ⟨p, c0, c1, mid, de, hsplit, hscheme, h0, hcls, h1, hmid, hde⟩
    have hrne : (c0 :: c1 :: (mid ++ de)) ≠ [] := by simp
    have hLr : ∀ c, (c0 :: c1 :: (mid ++ de)).getLast? = some c → isPySpace c = false := by
      intro c hc
      apply hLast
      rw [hsplit, getLast?_append_ne _ _ hrne]
      exact hc
    have hmas : matchAfterScheme (c0 :: c1 :: (mid ++ de)) = true :=
      (matchAfterScheme_iff _ hLr).mpr ⟨c0, c1, mid, de, rfl, h0, hcls, h1, hmid, hde⟩
    simp only [Bool.or_eq_true]
    rcases hscheme with hs | hs
    · left
      have hdc : dropCI ['h', 't', 't', 'p', ':', '/', '/'] url.data =
          some (c0 :: c1 :: (mid ++ de)) :=
        (dropCI_some_iff _ _ _).mpr ⟨p, hsplit, hs.trans (by decide)⟩
      rw [hdc]
      exact hmas
    · right
      have hdc : dropCI ['h', 't', 't', 'p', 's', ':', '/', '/'] url.data =
          some (c0 :: c1 :: (mid ++ de)) :=
        (dropCI_some_iff _ _ _).mpr ⟨p, hsplit, hs.trans (by decide)⟩
      rw [hdc]
      exact hmas

/-- C6 (amended): for a three-field data row whose serial number and
product name pass their checks, validation fails with the
invalid-image-URL error exactly when splitting the third field on `,`
yields at least one entry whose stripped form does not satisfy the amended
URL condition (the regex actually in the source). -/
theorem c6_invalid_url_iff_regex_mismatch (sno product_name image_urls : String)
    (h1 : pyIsDigit sno = true) (h2 : is_alphanumeric_with_spaces product_name = true) :
    checkRow [sno, product_name, image_urls] =
        some (.http 400 ("Invalid Image Urls in list: " ++ image_urls ++
          " at S.No.: " ++ sno)) ↔
      ∃ u ∈ splitComma image_urls, ¬ AmendedValidUrl (pyStrip u) := by
  unfold checkRow
  rw [if_neg (by simp), if_neg (by simp)]
  rw [if_neg (by simp [h1]), if_neg (by simp [h2])]
  rw [show ([sno, product_name, image_urls].getD 2 "") = image_urls from rfl,
    show ([sno, product_name, image_urls].getD 0 "") = sno from rfl]
  by_cases hall :
      (splitComma image_urls).all (fun u => is_valid_image_url (pyStrip u)) = false
  · rw [if_pos hall]
    refine iff_of_true rfl ?_
    have hne : ¬ ∀ u ∈ splitComma image_urls, is_valid_image_url (pyStrip u) = true := by
      intro hforall
      rw [List.all_eq_true.mpr hforall] at hall
      cases hall
    push_neg at hne
    obtain ⟨u, hu, hvu⟩ := hne
    refine ⟨u, hu, fun hA => ?_⟩
    exact hvu ((is_valid_image_url_iff (pyStrip u)
      (fun c hc => pyStrip_getLast u c hc)).mpr hA)
  · rw [if_neg hall]
    have hallT : (splitComma image_urls).all (fun u => is_valid_image_url (pyStrip u))
        = true := by
      cases hb : (splitComma image_urls).all (fun u => is_valid_image_url (pyStrip u)) with
      | false => exact absurd hb hall
      | true => rfl
    constructor
    · intro h
      exact Option.noConfusion h
    · rintro ⟨u, hu, hA⟩
      have hvu := List.all_eq_true.mp hallT u hu
      exact absurd ((is_valid_image_url_iff (pyStrip u)
        (fun c hc => pyStrip_getLast u c hc)).mp hvu) hA

/-- Witness for C6 (amended): a `.txt` entry is reported as an invalid
image URL, and indeed fails the amended URL condition. -/
theorem c6_invalid_url_witness :
    ∃ u ∈ splitComma "http://ab.txt", ¬ AmendedValidUrl (pyStrip u) :=
  (c6_invalid_url_iff_regex_mismatch "1" "A" "http://ab.txt"
    (by decide) (by decide)).mp (by decide)

/-- C6 counterexample to the claim as stated: the entry `http://a b.jpg`
contains interior whitespace, so by the claim validation must fail; but the
regex's unconstrained single character `.` matches the space, the source
accepts the URL, and the row passes validation. -/
theorem c6_whitespace_url_accepted :
    checkRow ["1", "A", "http://a b.jpg"] = none ∧
    is_valid_image_url (pyStrip "http://a b.jpg") = true ∧
    specClaimValidUrl (pyStrip "http://a b.jpg") = false := by
  decide
